import Mathlib

/-!
Verification of the siberia HTTP-to-spreadsheet bridge.

The Go service accepts production records and per-employee daily hours and
writes them into a shared spreadsheet.  This file gives a shallow embedding of
the pure core of that code — cell values as they arrive from the remote API,
Go's string/number helpers, the timesheet cell locator, the production ledger
writer, month-sheet provisioning, handler validation, and the double-checked
locking around month-sheet creation — and proves the specification's claims
about them.  Remote I/O is factored out: every function takes the cell ranges
the Go code would fetch as explicit arguments and returns the write it would
perform (or the error / panic outcome).
-/

namespace Siberia

/-- Value of one spreadsheet cell as delivered by the remote API: the Go code
receives `interface{}` values that are strings, numbers or booleans (the spec's
§9 boundary model).  Numbers are modelled as integers, which covers the
integral day-of-month header values the code compares against. -/
inductive CellValue where
  | str (s : String)
  | num (n : Int)
  | boolean (b : Bool)
deriving DecidableEq, Repr

/-- Go `fmt.Sprintf("%v", cell)`: strings verbatim, numbers and booleans in
their standard decimal / `true`/`false` notation. -/
def goFormat : CellValue → String
  | .str s => s
  | .num n => toString n
  | .boolean b => if b then "true" else "false"

/-- Whitespace predicate of Go `unicode.IsSpace`: ASCII control whitespace,
space, NEL, NBSP and the Unicode `Zs` separators. -/
def goIsSpace (c : Char) : Bool :=
  c.toNat == 9 || c.toNat == 10 || c.toNat == 11 || c.toNat == 12 ||
  c.toNat == 13 || c.toNat == 32 || c.toNat == 0x85 || c.toNat == 0xA0 ||
  c.toNat == 0x1680 || (0x2000 ≤ c.toNat && c.toNat ≤ 0x200A) ||
  c.toNat == 0x2028 || c.toNat == 0x2029 || c.toNat == 0x202F ||
  c.toNat == 0x205F || c.toNat == 0x3000

/-- Go `strings.TrimSpace`: drop leading and trailing whitespace. -/
def goTrimSpace (s : String) : String :=
  ⟨((s.data.dropWhile goIsSpace).reverse.dropWhile goIsSpace).reverse⟩

/-- Decimal digit test, Go `'0' <= c && c <= '9'`. -/
def isDigitChar (c : Char) : Bool := '0' ≤ c && c ≤ '9'

/-- Accumulates a decimal digit run; `none` as soon as a non-digit appears
(Go `strconv.ParseInt` in base 10 accepts plain digits only). -/
def decDigitsAux : List Char → Nat → Option Nat
  | [], acc => some acc
  | c :: rest, acc =>
    if isDigitChar c then decDigitsAux rest (acc * 10 + (c.toNat - 48)) else none

/-- Go `strconv.Atoi` (= `ParseInt(s, 10, 0)` on a 64-bit platform): optional
sign, then a nonempty run of decimal digits, rejected on 64-bit overflow.
`none` models the non-`nil` error the callers test for. -/
def goAtoi (s : String) : Option Int :=
  match s.data with
  | [] => none
  | c :: rest =>
    let p : Bool × List Char :=
      if c == '-' then (true, rest)
      else if c == '+' then (false, rest)
      else (false, c :: rest)
    match p.2 with
    | [] => none
    | _ =>
      match decDigitsAux p.2 0 with
      | none => none
      | some v =>
        if p.1 then
          if v ≤ 2 ^ 63 then some (-(v : Int)) else none
        else
          if v ≤ 2 ^ 63 - 1 then some (v : Int) else none

/-- Loop body of `columnToLetter` (main.go / utils.ColumnToLetter):
`for col > 0 { col--; letter = char('A'+col%26) + letter; col = col / 26 }`.
The `fuel` argument bounds the iteration count; since each step maps
`col = n+1` to `n / 26 < n+1`, fuel `col` is always enough. -/
def columnToLetterAux : Nat → Nat → List Char → List Char
  | _, 0, acc => acc
  | 0, _ + 1, acc => acc
  | fuel + 1, n + 1, acc =>
    columnToLetterAux fuel (n / 26) (Char.ofNat (65 + n % 26) :: acc)

/-- Go `columnToLetter` / `utils.ColumnToLetter`: bijective base-26 rendering
of a positive column number (1 → "A", 26 → "Z", 27 → "AA"). -/
def columnToLetter (col : Nat) : String :=
  ⟨columnToLetterAux col col []⟩

/-- Standard letter→number decoding (the spec-side inverse of
`columnToLetter`): "A" = 1, …, "Z" = 26, then positionally base 26. -/
def letterToColumn (s : String) : Nat :=
  s.data.foldl (fun a c => a * 26 + (c.toNat - 64)) 0

/-- Calendar date as produced by Go `time.Parse("2006-01-02", s)`. -/
structure GoDate where
  year : Nat
  month : Nat
  day : Nat
deriving DecidableEq, Repr

/-- Leap-year rule of Go `time.isLeap`. -/
def isLeapYear (y : Nat) : Bool :=
  y % 4 == 0 && (y % 100 != 0 || y % 400 == 0)

/-- Length of a month, which Go `time.Parse` validates the day against. -/
def daysInMonth (y m : Nat) : Nat :=
  if m == 2 then (if isLeapYear y then 29 else 28)
  else if m == 4 || m == 6 || m == 9 || m == 11 then 30
  else 31

/-- Go `time.Parse("2006-01-02", s)`: exactly `yyyy-mm-dd` in decimal digits,
month 1–12, day within the month (Go rejects out-of-range components with
"month/day out of range").  `none` models the parse error. -/
def goParseDateISO (s : String) : Option GoDate :=
  match s.data with
  | [y1, y2, y3, y4, '-', m1, m2, '-', d1, d2] =>
    if isDigitChar y1 && isDigitChar y2 && isDigitChar y3 && isDigitChar y4 &&
       isDigitChar m1 && isDigitChar m2 && isDigitChar d1 && isDigitChar d2 then
      let y := (((y1.toNat - 48) * 10 + (y2.toNat - 48)) * 10 + (y3.toNat - 48)) * 10 +
        (y4.toNat - 48)
      let m := (m1.toNat - 48) * 10 + (m2.toNat - 48)
      let d := (d1.toNat - 48) * 10 + (d2.toNat - 48)
      if 1 ≤ m && m ≤ 12 && 1 ≤ d && d ≤ daysInMonth y m then
        some ⟨y, m, d⟩
      else none
    else none
  | _ => none

/-- Russian month names used by `getMonthSheetName` and
`CopyAndPrepareSheet` (main.go:130-133). -/
def monthNames : List String :=
  ["Январь", "Февраль", "Март", "Апрель", "Май", "Июнь",
   "Июль", "Август", "Сентябрь", "Октябрь", "Ноябрь", "Декабрь"]

/-- Go `getMonthSheetName` (main.go:129-137):
`fmt.Sprintf("Табель %s %d", monthNames[month-1], year)`.  The month of a
parsed date is always 1–12, so the list index is in range. -/
def getMonthSheetName (d : GoDate) : String :=
  "Табель " ++ monthNames.getD (d.month - 1) "" ++ " " ++ toString d.year

/-- Decoded body of a `/submit-timesheet` POST (struct `TimesheetData`). -/
structure TimesheetData where
  date : String
  fullName : String
  hours : String
deriving DecidableEq, Repr

/-- Result of a Go loop that can fail a `row[0].(string)` type assertion:
such a failure aborts the goroutine instead of returning an error. -/
inductive GoResult (α : Type) where
  | panicked
  | ok (a : α)
deriving DecidableEq, Repr

/-- String-cell test, used to state the no-type-assertion-failure
hypotheses. -/
def isStrCell : CellValue → Bool
  | .str _ => true
  | _ => false

/-- Condition that a row's first cell, if present, is a string — exactly when
the Go band scans cannot fail their type assertion on it. -/
def headStrOk : List CellValue → Bool
  | [] => true
  | c :: _ => isStrCell c

/-- Name-band loop of `findTimesheetCell` (main.go:422-427, likewise in
internal/models/timesheet.go): the first row whose first cell — a string by
unchecked type assertion — trims to the submitted name wins; rows without
cells are skipped; a non-string first cell aborts.  Returns the band index
of the match; the caller adds 4 for the sheet row. -/
def scanNameRows : List (List CellValue) → String → Nat → GoResult (Option Nat)
  | [], _, _ => .ok none
  | row :: rest, name, i =>
    match row with
    | [] => scanNameRows rest name (i + 1)
    | c :: _ =>
      match c with
      | .str s =>
        if goTrimSpace s == name then .ok (some i) else scanNameRows rest name (i + 1)
      | _ => .panicked

/-- Enumeration loop of the name-not-found error (main.go:430-435): collects
`row[0].(string)` of every row that has a first cell, aborting on a
non-string cell. -/
def collectNames : List (List CellValue) → GoResult (List String)
  | [] => .ok []
  | row :: rest =>
    match row with
    | [] => collectNames rest
    | c :: _ =>
      match c with
      | .str s =>
        match collectNames rest with
        | .panicked => .panicked
        | .ok l => .ok (s :: l)
      | _ => .panicked

/-- Day-band loop of `findTimesheetCell` (main.go:450-461): every header cell
is stringified with `fmt.Sprintf("%v", ...)` and trimmed, then parsed with
`strconv.Atoi` and compared with the requested day-of-month; the index of the
first hit is returned, and the caller adds 3 for the sheet column. -/
def scanDayCells : List CellValue → Int → Nat → Option Nat
  | [], _, _ => none
  | c :: rest, day, i =>
    match goAtoi (goTrimSpace (goFormat c)) with
    | some v => if v == day then some i else scanDayCells rest day (i + 1)
    | none => scanDayCells rest day (i + 1)

/-- Go `%v` rendering of the elements of a `[]string` slice: space
separated. -/
def goJoinSpace : List String → String
  | [] => ""
  | [s] => s
  | s :: rest => s ++ " " ++ goJoinSpace rest

/-- Go `%v` rendering of a `[]string` slice: the elements space-separated
inside brackets. -/
def goFormatStrList (l : List String) : String :=
  "[" ++ goJoinSpace l ++ "]"

/-- Error text of main.go:436: the submitted name plus the names present in
the band. -/
def nameNotFoundMsg (fullName : String) (avail : List String) : String :=
  "full name '" ++ fullName ++ "' not found. Available names: " ++ goFormatStrList avail

/-- Error text of internal/models/timesheet.go:78: the submitted name only,
with no enumeration of the band. -/
def nameNotFoundMsgModels (fullName : String) : String :=
  "full name '" ++ fullName ++ "' not found in timesheet"

/-- Error text of main.go:470 / internal/models/timesheet.go:112: the missing
day plus the header values present in the band. -/
def dayNotFoundMsg (day : Int) (avail : List String) : String :=
  "day " ++ toString day ++ " not found in timesheet. Available days: " ++
    goFormatStrList avail

/-- Outcome of `findTimesheetCell`. -/
inductive FindCellResult where
  | panicked
  | err (msg : String)
  | found (colLetter : String) (row : Nat) (col : Nat)
deriving DecidableEq, Repr

/-- Boolean test that a locator outcome is the panic outcome. -/
def FindCellResult.isPanic : FindCellResult → Bool
  | .panicked => true
  | _ => false

/-- main.go `findTimesheetCell` (lines 399-475), with the two fetched ranges
passed in explicitly: `namesBand` is the rows of `B4:B12`, `daysBand` the
rows of `C3:AG3`.  The date string is parsed for its day-of-month, the name
row and day column are located by the linear band scans, and either miss is
an error enumerating what the band holds.  The date-parse error elides the
wrapped stdlib error detail after the fixed prefix. -/
def findTimesheetCell (data : TimesheetData)
    (namesBand daysBand : List (List CellValue)) : FindCellResult :=
  match goParseDateISO data.date with
  | none => .err "invalid date format, expected YYYY-MM-DD"
  | some d =>
    let dayToFind : Int := d.day
    match scanNameRows namesBand data.fullName 0 with
    | .panicked => .panicked
    | .ok none =>
      match collectNames namesBand with
      | .panicked => .panicked
      | .ok avail => .err (nameNotFoundMsg data.fullName avail)
    | .ok (some i) =>
      let dayRow := daysBand.headD []
      match scanDayCells dayRow dayToFind 0 with
      | some j => .found (columnToLetter (3 + j)) (4 + i) (3 + j)
      | none => .err (dayNotFoundMsg dayToFind (dayRow.map goFormat))

/-- internal/models/timesheet.go `findTimesheetCell` (lines 48-117): the same
scans, except that the name-not-found error (lines 77-79) reports only the
submitted name, without enumerating the band. -/
def findTimesheetCellModels (data : TimesheetData)
    (namesBand daysBand : List (List CellValue)) : FindCellResult :=
  match goParseDateISO data.date with
  | none => .err "invalid date format, expected YYYY-MM-DD"
  | some d =>
    let dayToFind : Int := d.day
    match scanNameRows namesBand data.fullName 0 with
    | .panicked => .panicked
    | .ok none => .err (nameNotFoundMsgModels data.fullName)
    | .ok (some i) =>
      let dayRow := daysBand.headD []
      match scanDayCells dayRow dayToFind 0 with
      | some j => .found (columnToLetter (3 + j)) (4 + i) (3 + j)
      | none => .err (dayNotFoundMsg dayToFind (dayRow.map goFormat))

/-- Date-band loop of the part_009 revision's `findTimesheetCell`
(src/unnamed/part_009:253-261): a checked type assertion
(`cellStr, ok := cell.(string)`) skips non-string cells, and the trimmed cell
must equal the full submitted date string; the index of the first hit is
returned. -/
def scanDateCells (date : String) : List CellValue → Nat → Option Nat
  | [], _ => none
  | c :: rest, i =>
    match c with
    | .str s =>
      if goTrimSpace s == date then some i else scanDateCells date rest (i + 1)
    | _ => scanDateCells date rest (i + 1)

/-- Claim-side test for the part_009 date band: the cell is a string that
trims to the full submitted date. -/
def dateCellMatches (date : String) : CellValue → Bool
  | .str s => goTrimSpace s == date
  | _ => false

/-- Outcome of the part_009 `findTimesheetCell`: the full cell reference it
returns, or the failure. -/
inductive CellRefResult where
  | panicked
  | err (msg : String)
  | ref (cell : String)
deriving DecidableEq, Repr

/-- src/unnamed/part_009 `findTimesheetCell` (lines 215-268): the same name
scan as the other revisions, then a date scan matching the trimmed header
cell against the full submitted date string; a name miss is the fixed message
"full name not found" and a date miss the fixed message "date not found" —
neither enumerates anything; on success the full cell reference
`Табель!<col><row>` is returned. -/
def findTimesheetCellPart009 (data : TimesheetData)
    (namesBand datesBand : List (List CellValue)) : CellRefResult :=
  match scanNameRows namesBand data.fullName 0 with
  | .panicked => .panicked
  | .ok none => .err "full name not found"
  | .ok (some i) =>
    let dateRow := datesBand.headD []
    match scanDateCells data.date dateRow 0 with
    | some j => .ref ("Табель!" ++ columnToLetter (3 + j) ++ toString (4 + i))
    | none => .err "date not found"

/-- Outcome of `appendTimesheetData`: the single-cell write it performs, or
the failure. -/
inductive WriteOutcome where
  | panicked
  | err (msg : String)
  | write (cell : String) (value : String)
deriving DecidableEq, Repr

/-- main.go `appendTimesheetData` (lines 489-527): parse the date, derive the
month-sheet name, locate the cell and write the hours value to the range
`<sheet>!<col><row>`.  The intervening `ensureSheetVisible` call only toggles
sheet visibility (modelled in the provisioning section) and cannot change the
target address. -/
def appendTimesheetData (data : TimesheetData)
    (namesBand daysBand : List (List CellValue)) : WriteOutcome :=
  match goParseDateISO data.date with
  | none => .err "invalid date format"
  | some d =>
    let monthSheetName := getMonthSheetName d
    match findTimesheetCell data namesBand daysBand with
    | .panicked => .panicked
    | .err m => .err ("failed to find cell: " ++ m)
    | .found colLetter row _ =>
      .write (monthSheetName ++ "!" ++ colLetter ++ toString row) data.hours

/-- Index of the first element satisfying `p` — the claim-side notion of
"the first matching cell". -/
def firstIdxP {α : Type} (p : α → Bool) : List α → Option Nat
  | [] => none
  | a :: l => if p a then some 0 else (firstIdxP p l).map (· + 1)

/-- Claim-side test: the row's first cell is a string that trims to
`name`. -/
def nameMatches (name : String) (row : List CellValue) : Bool :=
  match row with
  | .str s :: _ => goTrimSpace s == name
  | _ => false

/-- Claim-side test: the header cell's integer value equals `day`. -/
def dayMatches (day : Int) (c : CellValue) : Bool :=
  match goAtoi (goTrimSpace (goFormat c)) with
  | some v => v == day
  | none => false

/-- Names present in the band: the first cell of every row that has one.
Under `headStrOk` this is what the enumeration loop collects. -/
def presentNames (rows : List (List CellValue)) : List String :=
  rows.filterMap fun r =>
    match r with
    | CellValue.str s :: _ => some s
    | _ => none

/-- Decoded body of a `/submit-production` POST (struct `ProductionData`).
A field missing from the JSON payload decodes to the empty string. -/
structure ProductionData where
  date : String
  fullName : String
  partAndOperation : String
  totalParts : String
  defective : String
  goodParts : String
  notes : String
deriving DecidableEq, Repr

/-- Row written by `AppendProductionData`
(internal/models/production.go:33-43). -/
def productionRow (d : ProductionData) : List String :=
  [d.date, d.fullName, d.partAndOperation, d.totalParts, d.defective, d.goodParts, d.notes]

/-- Loop of `findLastNonEmptyRow` (internal/models/production.go:86-91):
`lastNonEmpty = i+1` for every row whose first cell — a string by unchecked
type assertion — is non-blank after trimming; a non-string first cell
aborts. -/
def findLastNonEmptyRowAux : List (List CellValue) → Nat → Nat → GoResult Nat
  | [], _, last => .ok last
  | row :: rest, i, last =>
    match row with
    | [] => findLastNonEmptyRowAux rest (i + 1) last
    | c :: _ =>
      match c with
      | .str s =>
        findLastNonEmptyRowAux rest (i + 1) (if goTrimSpace s != "" then i + 1 else last)
      | _ => .panicked

/-- internal/models `findLastNonEmptyRow` over the fetched `A:A` column
rows. -/
def findLastNonEmptyRow (colA : List (List CellValue)) : GoResult Nat :=
  findLastNonEmptyRowAux colA 0 0

/-- Outcome of `AppendProductionData`: the one-row range write
`A<target>:G<target>` it performs, or the abort from the last-row scan. -/
inductive AppendOutcome where
  | panicked
  | write (targetRow : Nat) (values : List String)
deriving DecidableEq, Repr

/-- internal/models/production.go `AppendProductionData` (lines 25-60): the
record is written as one seven-cell row into the row immediately after the
last non-empty row of the ledger's first column. -/
def AppendProductionData (colA : List (List CellValue)) (data : ProductionData) :
    AppendOutcome :=
  match findLastNonEmptyRow colA with
  | .panicked => .panicked
  | .ok last => .write (last + 1) (productionRow data)

/-- Claim-side test: the row has a first cell whose string form is non-blank
after trimming. -/
def rowNonBlank : List CellValue → Bool
  | [] => false
  | c :: _ => goTrimSpace (goFormat c) != ""

/-- Claim-side position (1-based) of the last row whose first cell is
non-blank after trimming, located as the first such row of the reversed
column; 0 when every row is blank. -/
def lastNonEmptySpec (colA : List (List CellValue)) : Nat :=
  match firstIdxP rowNonBlank colA.reverse with
  | none => 0
  | some k => colA.length - k

/-- Contiguous-substring test on character lists, used to state that an error
message enumerates a value. -/
def containsChars (needle : List Char) : List Char → Bool
  | [] => needle.isPrefixOf []
  | c :: rest => needle.isPrefixOf (c :: rest) || containsChars needle rest

/-- Contiguous-substring test on strings: `needle` occurs inside `hay`. -/
def containsSub (hay needle : String) : Bool :=
  containsChars needle.data hay.data

/-- Structural properties of one sheet of the spreadsheet, as the
provisioning code reads and edits them (`sheets(properties(sheetId,title,
hidden))`).  Ids are the remote `int64` values; 0 is Go's zero value used by
the "not found" checks. -/
structure SheetProps where
  sheetId : Nat
  title : String
  hidden : Bool
deriving DecidableEq, Repr

/-- Outcome of a provisioning call: the error, if any, and the sheet list of
the spreadsheet after the call.  Cell-level effects (the stamped header row,
the cleared `C4:AG17` range) and the tab reordering touch nothing this model
tracks. -/
structure ProvisionResult where
  error : Option String
  sheets : List SheetProps
deriving DecidableEq, Repr

/-- Go loop-with-assignment `for _, s := range sheets { if p(s) { id =
s.SheetId } }`: the id of the last sheet satisfying `p`, or 0. -/
def lastMatchingId (l : List SheetProps) (p : SheetProps → Bool) : Nat :=
  l.foldl (fun acc s => if p s then s.sheetId else acc) 0

/-- main.go `ensureSheetVisible` (lines 530-607): find the last visible
non-production sheet other than the target and the last sheet titled
`sheetName` (both skipping the production sheet via `continue`); fail when no
target was found; otherwise hide the previously active sheet (when distinct
from the target) and unhide the target. -/
def ensureSheetVisible (productionSheet : String) (sheetsL : List SheetProps)
    (sheetName : String) : ProvisionResult :=
  let currentActive := lastMatchingId sheetsL fun s =>
    !(s.title == productionSheet) && !s.hidden && !(s.title == sheetName)
  let target := lastMatchingId sheetsL fun s =>
    !(s.title == productionSheet) && s.title == sheetName
  if target == 0 then
    ⟨some ("target sheet '" ++ sheetName ++ "' not found"), sheetsL⟩
  else
    let afterHide :=
      if currentActive != 0 && currentActive != target then
        sheetsL.map fun s =>
          if s.sheetId == currentActive then { s with hidden := true } else s
      else sheetsL
    let afterShow := afterHide.map fun s =>
      if s.sheetId == target then { s with hidden := false } else s
    ⟨none, afterShow⟩

/-- main.go `CopyAndPrepareSheet` (lines 719-821): duplicate the template
sheet — the remote assigns the copy's id and provisional title, passed in
here as `copyId` and `copyTitle` — then fail if any sheet already carries the
computed month name; otherwise rename the copy, hide the template in the same
batch, stamp the header row and clear `C4:AG17` (cell-level, untracked), and
toggle visibility towards the new sheet. -/
def CopyAndPrepareSheet (sheetsL : List SheetProps) (copyId : Nat) (copyTitle : String)
    (sourceSheetID : Nat) (productionSheet : String) (d : GoDate) : ProvisionResult :=
  let copied := sheetsL ++ [⟨copyId, copyTitle, false⟩]
  let newSheetName := getMonthSheetName d
  if copied.any (fun s => s.title == newSheetName) then
    ⟨some ("sheet with name '" ++ newSheetName ++ "' already exists"), copied⟩
  else
    let renamed := copied.map fun s =>
      if s.sheetId == copyId then { s with title := newSheetName } else s
    let hiddenTemplate := renamed.map fun s =>
      if s.sheetId == sourceSheetID then { s with hidden := true } else s
    ensureSheetVisible productionSheet hiddenTemplate newSheetName

/-- Program counter of one goroutine running `handleMonthSheet`
(main.go:139-165) after a cache miss is possible: read the cache under the
reader lock, return early on a hit, otherwise take the exclusive lock,
re-check, clone if still absent, publish the cache entry and unlock. -/
inductive GPC where
  | idle
  | afterRead (seen : Bool)
  | waitLock
  | inCrit
  | clonePending
  | doneOk
  | doneErr
deriving DecidableEq, Repr

/-- Holder of the exclusive half of `sheetCacheMux`. -/
inductive LockSt where
  | free
  | held1
  | held2
deriving DecidableEq, Repr

/-- Global state of two goroutines handling the same month: their program
counters, the lock, the cache entry for the month-sheet name, and how many
month-sheets have been created by successful `CopyAndPrepareSheet` calls. -/
structure CState where
  pc1 : GPC
  pc2 : GPC
  lock : LockSt
  cache : Bool
  created : Nat
deriving DecidableEq, Repr

/-- Successors of one goroutine's step in `handleMonthSheet`, given which
lock value marks it as owner.  The RLock/read/RUnlock of lines 142-144 is one
atomic step, enabled while no writer holds the lock; `Lock()` at line 150
blocks until the lock is free; the re-check at line 154 returns early under
the lock; the clone at line 158 either succeeds (cache published at line 162,
deferred unlock) or fails (error returned, cache untouched, deferred
unlock). -/
def gNext (mine : LockSt) (pc : GPC) (lock : LockSt) (cache : Bool) (created : Nat) :
    List (GPC × LockSt × Bool × Nat) :=
  match pc with
  | .idle => if lock == .free then [(.afterRead cache, lock, cache, created)] else []
  | .afterRead b =>
    if b then [(.doneOk, lock, cache, created)] else [(.waitLock, lock, cache, created)]
  | .waitLock => if lock == .free then [(.inCrit, mine, cache, created)] else []
  | .inCrit =>
    if cache then [(.doneOk, .free, cache, created)]
    else [(.clonePending, lock, cache, created)]
  | .clonePending =>
    [(.doneOk, .free, true, created + 1),
     (.doneErr, .free, cache, created)]
  | .doneOk => []
  | .doneErr => []

/-- Interleaving successors of the two-goroutine state. -/
def nextStates (s : CState) : List CState :=
  (gNext .held1 s.pc1 s.lock s.cache s.created).map
    (fun t => ⟨t.1, s.pc2, t.2.1, t.2.2.1, t.2.2.2⟩) ++
  (gNext .held2 s.pc2 s.lock s.cache s.created).map
    (fun t => ⟨s.pc1, t.1, t.2.1, t.2.2.1, t.2.2.2⟩)

/-- One interleaving step. -/
def CStep (s t : CState) : Prop := t ∈ nextStates s

/-- Both goroutines about to serve the same month, nothing cached, nothing
created. -/
def initState : CState := ⟨.idle, .idle, .free, false, 0⟩

/-- States reachable from `initState` by interleaving steps. -/
def ReachableC (s : CState) : Prop := Relation.ReflTransGen CStep initState s

/-- Safety check: never more than one month-sheet created, and exactly one
once both goroutines have returned successfully. -/
def okState (s : CState) : Bool :=
  s.created ≤ 1 && (!(s.pc1 == .doneOk && s.pc2 == .doneOk) || s.created == 1)

/-- Breadth-first closure of the step relation, with enough fuel to
stabilize. -/
def stepClosure : Nat → List CState → List CState
  | 0, l => l
  | fuel + 1, l => stepClosure fuel ((l ++ l.flatMap nextStates).dedup)

/-- All states reachable from `initState`: the closure stabilizes well within
the given fuel. -/
def reachList : List CState := stepClosure 16 [initState]

end Siberia


namespace Siberia

theorem columnToLetterAux_fuel :
    ∀ f f' n acc, n ≤ f → n ≤ f' →
      columnToLetterAux f n acc = columnToLetterAux f' n acc := by
  intro f
  induction f with
  | zero =>
    intro f' n acc hf _
    interval_cases n
    cases f' <;> rfl
  | succ f ih =>
    intro f' n acc hf hf'
    match n, f' with
    | 0, f' => cases f' <;> rfl
    | m + 1, f' + 1 =>
      show columnToLetterAux f (m / 26) _ = columnToLetterAux f' (m / 26) _
      exact ih f' (m / 26) _
        (le_trans (Nat.div_le_self m 26) (Nat.lt_succ_iff.mp hf))
        (le_trans (Nat.div_le_self m 26) (Nat.lt_succ_iff.mp hf'))

theorem columnToLetterAux_append :
    ∀ f n acc, columnToLetterAux f n acc = columnToLetterAux f n [] ++ acc := by
  intro f
  induction f with
  | zero => intro n acc; cases n <;> rfl
  | succ f ih =>
    intro n acc
    match n with
    | 0 => rfl
    | m + 1 =>
      show columnToLetterAux f (m / 26) _ = columnToLetterAux (f + 1) (m + 1) [] ++ acc
      rw [ih (m / 26) (Char.ofNat (65 + m % 26) :: acc)]
      show columnToLetterAux f (m / 26) [] ++ (Char.ofNat (65 + m % 26) :: acc) =
        columnToLetterAux f (m / 26) (Char.ofNat (65 + m % 26) :: []) ++ acc

      rw [ih (m / 26) [Char.ofNat (65 + m % 26)]]
      simp

theorem columnToLetter_digits (m : Nat) :
    columnToLetterAux (m + 1) (m + 1) [] =
      columnToLetterAux (m / 26) (m / 26) [] ++ [Char.ofNat (65 + m % 26)] := by
  show columnToLetterAux m (m / 26) [Char.ofNat (65 + m % 26)] = _
  rw [columnToLetterAux_fuel m (m / 26) (m / 26) _ (Nat.div_le_self m 26) le_rfl]
  exact columnToLetterAux_append (m / 26) (m / 26) _

theorem charVal_ofNat (m : Nat) :
    (Char.ofNat (65 + m % 26)).toNat - 64 = m % 26 + 1 := by
  have h : m % 26 < 26 := Nat.mod_lt _ (by norm_num)
  set r := m % 26 with hr
  interval_cases r <;> decide

theorem letterToColumn_columnToLetter :
    ∀ n : Nat, letterToColumn (columnToLetter n) = n := by
  intro n
  induction n using Nat.strong_induction_on with
  | _ n ih =>
    match n with
    | 0 => rfl
    | m + 1 =>
      have hrec := columnToLetter_digits m
      unfold letterToColumn columnToLetter
      rw [hrec, List.foldl_append]
      have hm : m / 26 < m + 1 := Nat.lt_succ_of_le (Nat.div_le_self m 26)
      have := ih (m / 26) hm
      unfold letterToColumn columnToLetter at this
      rw [this]
      simp only [List.foldl]
      rw [charVal_ofNat]
      have := Nat.div_add_mod m 26
      omega

/-- C3: `columnToLetter` implements bijective base-26 column numbering
(1 → "A", 26 → "Z", 27 → "AA", 702 → "ZZ") and the standard letter→number
decoding recovers every positive column number. -/
theorem columnToLetter_bijective_base26 :
    columnToLetter 1 = "A" ∧ columnToLetter 26 = "Z" ∧
    columnToLetter 27 = "AA" ∧ columnToLetter 702 = "ZZ" ∧
    ∀ n : Nat, 0 < n → letterToColumn (columnToLetter n) = n :=
  ⟨by decide, by decide, by decide, by decide,
   fun n _ => letterToColumn_columnToLetter n⟩

/-- Witness for C3 at the concrete column 702. -/
theorem columnToLetter_bijective_base26_witness :
    letterToColumn (columnToLetter 702) = 702 :=
  columnToLetter_bijective_base26.2.2.2.2 702 (by decide)

theorem scanNameRows_eq (name : String) :
    ∀ (rows : List (List CellValue)) (k : Nat), rows.all headStrOk = true →
      scanNameRows rows name k =
        .ok ((firstIdxP (nameMatches name) rows).map (fun t => k + t)) := by
  intro rows
  induction rows with
  | nil => intro k _; rfl
  | cons row rest ih =>
    intro k hall
    rw [List.all_cons, Bool.and_eq_true] at hall
    obtain ⟨hrow, hrest⟩ := hall
    match row with
    | [] =>
      show scanNameRows rest name (k + 1) = _
      rw [ih (k + 1) hrest]
      have hm : nameMatches name ([] : List CellValue) = false := rfl
      simp only [firstIdxP, hm, Bool.false_eq_true, if_false, Option.map_map]
      cases firstIdxP (nameMatches name) rest with
      | none => rfl
      | some t => simp; omega
    | CellValue.str s :: cs =>
      have hm : nameMatches name (CellValue.str s :: cs) = (goTrimSpace s == name) := rfl
      show (if goTrimSpace s == name then GoResult.ok (some k)
        else scanNameRows rest name (k + 1)) = _
      cases hsn : (goTrimSpace s == name) with
      | true => simp [firstIdxP, hm, hsn]
      | false =>
        rw [if_neg (by simp [hsn])]
        rw [ih (k + 1) hrest]
        simp only [firstIdxP, hm, hsn, Bool.false_eq_true, if_false, Option.map_map]
        cases firstIdxP (nameMatches name) rest with
        | none => rfl
        | some t => simp; omega
    | CellValue.num n :: cs => simp [headStrOk, isStrCell] at hrow
    | CellValue.boolean b :: cs => simp [headStrOk, isStrCell] at hrow

theorem scanDayCells_eq (day : Int) :
    ∀ (cells : List CellValue) (k : Nat),
      scanDayCells cells day k =
        (firstIdxP (dayMatches day) cells).map (fun t => k + t) := by
  intro cells
  induction cells with
  | nil => intro k; rfl
  | cons c rest ih =>
    intro k
    have hm : dayMatches day c =
        (match goAtoi (goTrimSpace (goFormat c)) with
         | some v => v == day
         | none => false) := rfl
    cases hat : goAtoi (goTrimSpace (goFormat c)) with
    | none =>
      have hdm : dayMatches day c = false := by rw [hm, hat]
      simp only [scanDayCells, hat, ih (k + 1), firstIdxP, hdm, Bool.false_eq_true,
        if_false, Option.map_map]
      cases firstIdxP (dayMatches day) rest with
      | none => rfl
      | some t => simp; omega
    | some v =>
      have hdm : dayMatches day c = (v == day) := by rw [hm, hat]
      cases hv : (v == day) with
      | true => simp [scanDayCells, hat, hv, firstIdxP, hdm]
      | false =>
        simp only [scanDayCells, hat, hv, Bool.false_eq_true, if_false, ih (k + 1),
          firstIdxP, hdm, Option.map_map]
        cases firstIdxP (dayMatches day) rest with
        | none => rfl
        | some t => simp; omega

theorem scanDateCells_eq (date : String) :
    ∀ (cells : List CellValue) (k : Nat),
      scanDateCells date cells k =
        (firstIdxP (dateCellMatches date) cells).map (fun t => k + t) := by
  intro cells
  induction cells with
  | nil => intro k; rfl
  | cons c rest ih =>
    intro k
    match c with
    | CellValue.str s =>
      have hm : dateCellMatches date (CellValue.str s) = (goTrimSpace s == date) := rfl
      cases hsn : (goTrimSpace s == date) with
      | true => simp [scanDateCells, firstIdxP, hm, hsn]
      | false =>
        simp only [scanDateCells, hsn, Bool.false_eq_true, if_false, ih (k + 1),
          firstIdxP, hm, Option.map_map]
        cases firstIdxP (dateCellMatches date) rest with
        | none => rfl
        | some t => simp; omega
    | CellValue.num n =>
      show scanDateCells date rest (k + 1) = _
      rw [ih (k + 1)]
      have hm : dateCellMatches date (CellValue.num n) = false := rfl
      simp only [firstIdxP, hm, Bool.false_eq_true, if_false, Option.map_map]
      cases firstIdxP (dateCellMatches date) rest with
      | none => rfl
      | some t => simp; omega
    | CellValue.boolean b =>
      show scanDateCells date rest (k + 1) = _
      rw [ih (k + 1)]
      have hm : dateCellMatches date (CellValue.boolean b) = false := rfl
      simp only [firstIdxP, hm, Bool.false_eq_true, if_false, Option.map_map]
      cases firstIdxP (dateCellMatches date) rest with
      | none => rfl
      | some t => simp; omega

theorem collectNames_eq :
    ∀ rows : List (List CellValue), rows.all headStrOk = true →
      collectNames rows = .ok (presentNames rows) := by
  intro rows
  induction rows with
  | nil => intro _; rfl
  | cons row rest ih =>
    intro hall
    rw [List.all_cons, Bool.and_eq_true] at hall
    obtain ⟨hrow, hrest⟩ := hall
    match row with
    | [] =>
      show collectNames rest = _
      rw [ih hrest]
      simp [presentNames]
    | CellValue.str s :: cs =>
      show (match collectNames rest with
        | GoResult.panicked => GoResult.panicked
        | GoResult.ok l => GoResult.ok (s :: l)) = _
      rw [ih hrest]
      simp [presentNames]
    | CellValue.num n :: cs => simp [headStrOk, isStrCell] at hrow
    | CellValue.boolean b :: cs => simp [headStrOk, isStrCell] at hrow

/-- C1: cell-locator correctness.  When the submitted date parses, every
first cell of the name band is a string, the first band row whose trimmed
cell equals the submitted name has index `i`, and the first header cell whose
integer value equals the day-of-month has index `j`, `findTimesheetCell`
returns row `4 + i` and column `3 + j` rendered as a letter — and the
resulting write of `appendTimesheetData` targets exactly that cell of the
month's sheet. -/
theorem findTimesheetCell_locates
    (data : TimesheetData) (namesBand daysBand : List (List CellValue)) (d : GoDate)
    (i j : Nat)
    (hdate : goParseDateISO data.date = some d)
    (hstr : namesBand.all headStrOk = true)
    (hi : firstIdxP (nameMatches data.fullName) namesBand = some i)
    (hj : firstIdxP (dayMatches (d.day : Int)) (daysBand.headD []) = some j) :
    findTimesheetCell data namesBand daysBand =
      .found (columnToLetter (3 + j)) (4 + i) (3 + j) ∧
    appendTimesheetData data namesBand daysBand =
      .write (getMonthSheetName d ++ "!" ++ columnToLetter (3 + j) ++ toString (4 + i))
        data.hours := by
  have hfind : findTimesheetCell data namesBand daysBand =
      .found (columnToLetter (3 + j)) (4 + i) (3 + j) := by
    unfold findTimesheetCell
    simp only [hdate]
    rw [scanNameRows_eq data.fullName namesBand 0 hstr, hi]
    simp only [Option.map_some', Nat.zero_add]
    rw [scanDayCells_eq (d.day : Int) (daysBand.headD []) 0, hj]
    simp only [Option.map_some', Nat.zero_add]
  refine ⟨hfind, ?_⟩
  unfold appendTimesheetData
  rw [hdate, hfind]

/-- Witness for C1: Бурлаков at band index 1 (sheet row 5) and day 5 of
February 2024 at header index 2 (column E): the write targets cell E5 of the
February sheet. -/
theorem findTimesheetCell_locates_witness :
    findTimesheetCell ⟨"2024-02-05", "Бурлаков", "8"⟩
        [[CellValue.str "Маслов"], [CellValue.str "Бурлаков"], [CellValue.str "Павлов"]]
        [[CellValue.str "3", CellValue.str "4", CellValue.str "5", CellValue.str "6"]] =
      .found "E" 5 5 ∧
    appendTimesheetData ⟨"2024-02-05", "Бурлаков", "8"⟩
        [[CellValue.str "Маслов"], [CellValue.str "Бурлаков"], [CellValue.str "Павлов"]]
        [[CellValue.str "3", CellValue.str "4", CellValue.str "5", CellValue.str "6"]] =
      .write "Табель Февраль 2024!E5" "8" := by
  have h := findTimesheetCell_locates ⟨"2024-02-05", "Бурлаков", "8"⟩
    [[CellValue.str "Маслов"], [CellValue.str "Бурлаков"], [CellValue.str "Павлов"]]
    [[CellValue.str "3", CellValue.str "4", CellValue.str "5", CellValue.str "6"]]
    ⟨2024, 2, 5⟩ 1 2 (by decide) (by decide) (by decide) (by decide)
  exact ⟨by rw [h.1]; decide, by rw [h.2]; decide⟩

/-- C10: the name-band scan of `findTimesheetCell` and the last-row scan of
`findLastNonEmptyRow` apply the unchecked type assertion `row[0].(string)`
and panic on a numeric cell, whereas the day-band scan stringifies any cell
value and never panics. -/
theorem unchecked_type_assertions :
    scanNameRows [[CellValue.num 5]] "Иванов" 0 = .panicked ∧
    findTimesheetCell ⟨"2024-02-05", "Иванов", "8"⟩ [[CellValue.num 5]] [] = .panicked ∧
    findLastNonEmptyRow [[CellValue.num 7]] = .panicked ∧
    AppendProductionData [[CellValue.num 7]]
      ⟨"2024-01-15", "Маслов", "Гайка Сибирь", "20", "1", "19", ""⟩ = .panicked ∧
    ∀ daysBand : List (List CellValue),
      (findTimesheetCell ⟨"2024-02-05", "Бурлаков", "8"⟩ [[CellValue.str "Бурлаков"]]
        daysBand).isPanic = false := by
  refine ⟨by decide, by decide, by decide, by decide, ?_⟩
  intro daysBand
  have hdate : goParseDateISO "2024-02-05" = some ⟨2024, 2, 5⟩ := by decide
  have h1 : scanNameRows [[CellValue.str "Бурлаков"]] "Бурлаков" 0 = .ok (some 0) := by
    decide
  simp only [findTimesheetCell, hdate, h1]
  cases hsd : scanDayCells (daysBand.headD []) ((5 : Nat) : Int) 0 <;>
    simp [hsd, FindCellResult.isPanic]

theorem firstIdxP_append {α : Type} (p : α → Bool) (l₁ l₂ : List α) :
    firstIdxP p (l₁ ++ l₂) =
      (match firstIdxP p l₁ with
       | some k => some k
       | none => (firstIdxP p l₂).map (fun t => l₁.length + t)) := by
  induction l₁ with
  | nil =>
    simp only [List.nil_append, firstIdxP, List.length_nil]
    cases firstIdxP p l₂ with
    | none => rfl
    | some t => simp
  | cons a l ih =>
    simp only [List.cons_append, firstIdxP, List.length_cons, List.append_eq]
    rw [ih]
    cases hpa : p a with
    | true => simp
    | false =>
      simp only [Bool.false_eq_true, if_false]
      cases firstIdxP p l with
      | some k => simp
      | none =>
        cases firstIdxP p l₂ with
        | none => simp
        | some t => simp; omega

theorem firstIdxP_some_lt {α : Type} (p : α → Bool) :
    ∀ (l : List α) (k : Nat), firstIdxP p l = some k → k < l.length := by
  intro l
  induction l with
  | nil => intro k h; simp [firstIdxP] at h
  | cons a l ih =>
    intro k h
    simp only [firstIdxP] at h
    cases hpa : p a with
    | true =>
      rw [hpa] at h
      simp at h
      simp only [List.length_cons]
      omega
    | false =>
      rw [hpa] at h
      simp only [Bool.false_eq_true, if_false] at h
      cases hfl : firstIdxP p l with
      | none => rw [hfl] at h; simp at h
      | some t =>
        rw [hfl] at h
        simp only [Option.map_some'] at h
        injection h with h
        have := ih t hfl
        simp only [List.length_cons]
        omega

theorem findLastNonEmptyRowAux_eq :
    ∀ (rows : List (List CellValue)) (i last : Nat), rows.all headStrOk = true →
      findLastNonEmptyRowAux rows i last =
        .ok (match firstIdxP rowNonBlank rows.reverse with
             | none => last
             | some k => i + rows.length - k) := by
  intro rows
  induction rows with
  | nil => intro i last _; rfl
  | cons row rest ih =>
    intro i last hall
    rw [List.all_cons, Bool.and_eq_true] at hall
    obtain ⟨hrow, hrest⟩ := hall
    have hrev : (row :: rest).reverse = rest.reverse ++ [row] := by simp
    rw [hrev, firstIdxP_append rowNonBlank rest.reverse [row]]
    match row with
    | [] =>
      show findLastNonEmptyRowAux rest (i + 1) last = _
      rw [ih (i + 1) last hrest]
      have hpb : rowNonBlank [] = false := rfl
      cases hk : firstIdxP rowNonBlank rest.reverse with
      | none => simp [hk, firstIdxP, hpb]
      | some k => simp [hk, List.length_cons]; omega
    | c :: cs =>
      match c with
      | CellValue.str s =>
        show findLastNonEmptyRowAux rest (i + 1)
          (if goTrimSpace s != "" then i + 1 else last) = _
        rw [ih (i + 1) _ hrest]
        have hpb : rowNonBlank (CellValue.str s :: cs) = (goTrimSpace s != "") := rfl
        cases hk : firstIdxP rowNonBlank rest.reverse with
        | some k => simp [hk, List.length_cons]; omega
        | none =>
          cases hb : (goTrimSpace s != "") with
          | true =>
            simp [hk, firstIdxP, hpb, hb, List.length_reverse]
            omega
          | false => simp [hk, firstIdxP, hpb, hb]
      | CellValue.num n => simp [headStrOk, isStrCell] at hrow
      | CellValue.boolean b => simp [headStrOk, isStrCell] at hrow

/-- C6: append-only ledger placement.  Under the no-panic hypothesis the
production record is written as a single seven-cell row
`[date, fullName, partAndOperation, totalParts, defective, goodParts, notes]`
into the row immediately after the last row whose first-column cell is
non-blank after trimming. -/
theorem AppendProductionData_appends_after_last
    (colA : List (List CellValue)) (data : ProductionData)
    (h : colA.all headStrOk = true) :
    AppendProductionData colA data =
      .write (lastNonEmptySpec colA + 1) (productionRow data) ∧
    (productionRow data).length = 7 := by
  constructor
  · unfold AppendProductionData findLastNonEmptyRow
    rw [findLastNonEmptyRowAux_eq colA 0 0 h]
    unfold lastNonEmptySpec
    cases hk : firstIdxP rowNonBlank colA.reverse <;> simp [hk]
  · rfl

/-- Witness for C6: with only a header in row 1 and no data rows, the record
lands at row 2. -/
theorem AppendProductionData_appends_after_last_witness :
    AppendProductionData [[CellValue.str "Дата"]]
        ⟨"2024-01-15", "Маслов", "Гайка Сибирь", "20", "1", "19", ""⟩ =
      .write 2 ["2024-01-15", "Маслов", "Гайка Сибирь", "20", "1", "19", ""] ∧
    (productionRow ⟨"2024-01-15", "Маслов", "Гайка Сибирь", "20", "1", "19", ""⟩).length =
      7 := by
  have h := AppendProductionData_appends_after_last [[CellValue.str "Дата"]]
    ⟨"2024-01-15", "Маслов", "Гайка Сибирь", "20", "1", "19", ""⟩ (by decide)
  exact ⟨by rw [h.1]; decide, h.2⟩

/-- C5 counterexample: the §8 scenario payload omits `goodParts`, so it
decodes to the empty string, and with only a header row present the written
row's sixth cell is "" — not "19", even though 20 − 1 renders as "19".  The
server stores the submitted goodParts string and never re-derives
totalParts − defective. -/
theorem goodParts_not_rederived :
    AppendProductionData [[CellValue.str "Дата"]]
        ⟨"2024-01-15", "Маслов", "Гайка Сибирь", "20", "1", "", ""⟩ =
      .write 2 ["2024-01-15", "Маслов", "Гайка Сибирь", "20", "1", "", ""] ∧
    ["2024-01-15", "Маслов", "Гайка Сибирь", "20", "1", "", ""].getD 5 "?" = "" ∧
    toString (20 - 1 : Int) = "19" ∧
    (("" : String) == "19") = false := by decide

/-- C5 amended: the written row's sixth cell equals the submitted goodParts
string verbatim — the client form computes totalParts − defective and sends
it; the server performs no arithmetic, and a payload omitting goodParts
stores the empty string. -/
theorem goodParts_passthrough
    (colA : List (List CellValue)) (data : ProductionData)
    (h : colA.all headStrOk = true) :
    AppendProductionData colA data =
      .write (lastNonEmptySpec colA + 1) (productionRow data) ∧
    (productionRow data).getD 5 "" = data.goodParts := by
  constructor
  · unfold AppendProductionData findLastNonEmptyRow
    rw [findLastNonEmptyRowAux_eq colA 0 0 h]
    unfold lastNonEmptySpec
    cases hk : firstIdxP rowNonBlank colA.reverse <;> simp [hk]
  · rfl

/-- Witness for C5 amended: totalParts 10, defective 2 and the
client-computed goodParts "8" store "8" in the sixth cell. -/
theorem goodParts_passthrough_witness :
    AppendProductionData [[CellValue.str "Дата"]]
        ⟨"2024-01-15", "Маслов", "Гайка Сибирь", "10", "2", "8", ""⟩ =
      .write 2 (productionRow ⟨"2024-01-15", "Маслов", "Гайка Сибирь", "10", "2", "8", ""⟩) ∧
    (productionRow ⟨"2024-01-15", "Маслов", "Гайка Сибирь", "10", "2", "8", ""⟩).getD 5 "" =
      "8" := by
  have h := goodParts_passthrough [[CellValue.str "Дата"]]
    ⟨"2024-01-15", "Маслов", "Гайка Сибирь", "10", "2", "8", ""⟩ (by decide)
  exact ⟨by rw [h.1]; decide, h.2⟩

theorem isPrefixOf_append_self : ∀ (n t : List Char), n.isPrefixOf (n ++ t) = true := by
  intro n
  induction n with
  | nil => intro t; simp [List.isPrefixOf]
  | cons c n ih => intro t; simp [List.isPrefixOf, ih]

theorem containsChars_of_decomp :
    ∀ (p n q hay : List Char), hay = p ++ n ++ q → containsChars n hay = true := by
  intro p
  induction p with
  | nil =>
    intro n q hay h
    subst h
    simp only [List.nil_append]
    cases hq : n ++ q with
    | nil =>
      have hn : n = [] := (List.append_eq_nil.mp hq).1
      subst hn
      rfl
    | cons c rest =>
      show (n.isPrefixOf (c :: rest) || containsChars n rest) = true
      rw [← hq, isPrefixOf_append_self]
      rfl
  | cons a p ih =>
    intro n q hay h
    subst h
    show (n.isPrefixOf (a :: (p ++ n ++ q)) || containsChars n (p ++ n ++ q)) = true
    rw [ih n q _ rfl]
    simp

theorem goJoinSpace_decomp :
    ∀ (l : List String) (s : String), s ∈ l →
      ∃ p q, (goJoinSpace l).data = p ++ s.data ++ q := by
  intro l
  induction l with
  | nil => intro s h; cases h
  | cons x rest ih =>
    intro s hs
    rcases List.mem_cons.mp hs with h | h
    · subst h
      cases rest with
      | nil => exact ⟨[], [], by simp [goJoinSpace]⟩
      | cons r rs =>
        refine ⟨[], " ".data ++ (goJoinSpace (r :: rs)).data, ?_⟩
        show (s ++ " " ++ goJoinSpace (r :: rs)).data = _
        simp
    · cases rest with
      | nil => cases h
      | cons r rs =>
        obtain ⟨p, q, hd⟩ := ih s h
        refine ⟨x.data ++ " ".data ++ p, q, ?_⟩
        show (x ++ " " ++ goJoinSpace (r :: rs)).data = _
        simp [hd]

theorem containsSub_enumeration (pre post : String) (avail : List String) (s : String)
    (hs : s ∈ avail) :
    containsSub (pre ++ goFormatStrList avail ++ post) s = true := by
  obtain ⟨p, q, hd⟩ := goJoinSpace_decomp avail s hs
  unfold containsSub
  refine containsChars_of_decomp (pre.data ++ "[".data ++ p) s.data
    (q ++ "]".data ++ post.data) _ ?_
  unfold goFormatStrList
  simp [hd]

/-- C4 counterexample: the internal/models variant of `findTimesheetCell`
reports a missing employee without enumerating the names present in the band
— the message for a band holding Петров does not mention Петров. -/
theorem locator_error_enumeration_counterexample :
    findTimesheetCellModels ⟨"2024-02-05", "Иванов", "8"⟩ [[CellValue.str "Петров"]]
        [[CellValue.str "5"]] =
      .err "full name 'Иванов' not found in timesheet" ∧
    containsSub "full name 'Иванов' not found in timesheet" "Петров" = false := by
  decide

/-- C4 amended: main.go's `findTimesheetCell` enumerates the names actually
present on a name miss and the header values actually present on a day miss;
the internal/models variant enumerates only the header values, reporting a
name miss without enumeration; and the part_009 revision enumerates nothing,
reporting the fixed messages "full name not found" and "date not found" —
regardless of what the bands hold; in every case the result is an error,
never a defaulted address. -/
theorem locator_error_enumeration :
    (∀ (data : TimesheetData) (namesBand daysBand : List (List CellValue)) (d : GoDate),
      goParseDateISO data.date = some d →
      namesBand.all headStrOk = true →
      firstIdxP (nameMatches data.fullName) namesBand = none →
      findTimesheetCell data namesBand daysBand =
        .err (nameNotFoundMsg data.fullName (presentNames namesBand)) ∧
      (∀ s ∈ presentNames namesBand,
        containsSub (nameNotFoundMsg data.fullName (presentNames namesBand)) s = true) ∧
      findTimesheetCellModels data namesBand daysBand =
        .err (nameNotFoundMsgModels data.fullName)) ∧
    (∀ (data : TimesheetData) (namesBand daysBand : List (List CellValue)) (d : GoDate)
      (i : Nat),
      goParseDateISO data.date = some d →
      namesBand.all headStrOk = true →
      firstIdxP (nameMatches data.fullName) namesBand = some i →
      firstIdxP (dayMatches (d.day : Int)) (daysBand.headD []) = none →
      findTimesheetCell data namesBand daysBand =
        .err (dayNotFoundMsg (d.day : Int) ((daysBand.headD []).map goFormat)) ∧
      findTimesheetCellModels data namesBand daysBand =
        .err (dayNotFoundMsg (d.day : Int) ((daysBand.headD []).map goFormat)) ∧
      (∀ s ∈ (daysBand.headD []).map goFormat,
        containsSub (dayNotFoundMsg (d.day : Int) ((daysBand.headD []).map goFormat)) s =
          true)) ∧
    (∀ (data : TimesheetData) (namesBand datesBand : List (List CellValue)),
      namesBand.all headStrOk = true →
      firstIdxP (nameMatches data.fullName) namesBand = none →
      findTimesheetCellPart009 data namesBand datesBand =
        .err "full name not found") ∧
    (∀ (data : TimesheetData) (namesBand datesBand : List (List CellValue)) (i : Nat),
      namesBand.all headStrOk = true →
      firstIdxP (nameMatches data.fullName) namesBand = some i →
      firstIdxP (dateCellMatches data.date) (datesBand.headD []) = none →
      findTimesheetCellPart009 data namesBand datesBand = .err "date not found") := by
  refine ⟨?_, ?_, ?_, ?_⟩
  · intro data namesBand daysBand d hdate hstr hmiss
    refine ⟨?_, ?_, ?_⟩
    · unfold findTimesheetCell
      simp only [hdate]
      rw [scanNameRows_eq data.fullName namesBand 0 hstr, hmiss,
        collectNames_eq namesBand hstr]
      simp only [Option.map_none']
    · intro s hs
      have : nameNotFoundMsg data.fullName (presentNames namesBand) =
          ("full name '" ++ data.fullName ++ "' not found. Available names: ") ++
            goFormatStrList (presentNames namesBand) ++ "" := by
        simp [nameNotFoundMsg]
      rw [this]
      exact containsSub_enumeration _ "" (presentNames namesBand) s hs
    · unfold findTimesheetCellModels
      simp only [hdate]
      rw [scanNameRows_eq data.fullName namesBand 0 hstr, hmiss]
      simp only [Option.map_none']
  · intro data namesBand daysBand d i hdate hstr hi hdmiss
    refine ⟨?_, ?_, ?_⟩
    · unfold findTimesheetCell
      simp only [hdate]
      rw [scanNameRows_eq data.fullName namesBand 0 hstr, hi]
      simp only [Option.map_some', Nat.zero_add]
      rw [scanDayCells_eq (d.day : Int) (daysBand.headD []) 0, hdmiss]
      simp only [Option.map_none']
    · unfold findTimesheetCellModels
      simp only [hdate]
      rw [scanNameRows_eq data.fullName namesBand 0 hstr, hi]
      simp only [Option.map_some', Nat.zero_add]
      rw [scanDayCells_eq (d.day : Int) (daysBand.headD []) 0, hdmiss]
      simp only [Option.map_none']
    · intro s hs
      have : dayNotFoundMsg (d.day : Int) ((daysBand.headD []).map goFormat) =
          ("day " ++ toString (d.day : Int) ++ " not found in timesheet. Available days: ") ++
            goFormatStrList ((daysBand.headD []).map goFormat) ++ "" := by
        simp [dayNotFoundMsg]
      rw [this]
      exact containsSub_enumeration _ "" ((daysBand.headD []).map goFormat) s hs
  · intro data namesBand datesBand hstr hmiss
    unfold findTimesheetCellPart009
    rw [scanNameRows_eq data.fullName namesBand 0 hstr, hmiss]
    simp only [Option.map_none']
  · intro data namesBand datesBand i hstr hi hdmiss
    unfold findTimesheetCellPart009
    rw [scanNameRows_eq data.fullName namesBand 0 hstr, hi]
    simp only [Option.map_some', Nat.zero_add]
    rw [scanDateCells_eq data.date (datesBand.headD []) 0, hdmiss]
    simp only [Option.map_none']

/-- Witness for C4 amended, at concrete name-miss, day-miss and part_009
inputs. -/
theorem locator_error_enumeration_witness :
    (findTimesheetCell ⟨"2024-02-05", "Иванов", "8"⟩ [[CellValue.str "Петров"]]
        [[CellValue.str "5"]] =
      .err (nameNotFoundMsg "Иванов" ["Петров"]) ∧
     containsSub (nameNotFoundMsg "Иванов" ["Петров"]) "Петров" = true ∧
     findTimesheetCellModels ⟨"2024-02-05", "Иванов", "8"⟩ [[CellValue.str "Петров"]]
        [[CellValue.str "5"]] =
      .err (nameNotFoundMsgModels "Иванов")) ∧
    (findTimesheetCell ⟨"2024-02-05", "Иванов", "8"⟩ [[CellValue.str "Иванов"]]
        [[CellValue.str "1", CellValue.str "2"]] =
      .err (dayNotFoundMsg 5 ["1", "2"]) ∧
     containsSub (dayNotFoundMsg 5 ["1", "2"]) "2" = true) ∧
    findTimesheetCellPart009 ⟨"2024-02-05", "Иванов", "8"⟩ [[CellValue.str "Петров"]]
        [[CellValue.str "2024-02-05"]] =
      .err "full name not found" ∧
    findTimesheetCellPart009 ⟨"2024-02-05", "Иванов", "8"⟩ [[CellValue.str "Иванов"]]
        [[CellValue.str "2024-02-04"]] =
      .err "date not found" := by
  have h1 := locator_error_enumeration.1 ⟨"2024-02-05", "Иванов", "8"⟩
    [[CellValue.str "Петров"]] [[CellValue.str "5"]] ⟨2024, 2, 5⟩
    (by decide) (by decide) (by decide)
  have h2 := locator_error_enumeration.2.1 ⟨"2024-02-05", "Иванов", "8"⟩
    [[CellValue.str "Иванов"]] [[CellValue.str "1", CellValue.str "2"]] ⟨2024, 2, 5⟩ 0
    (by decide) (by decide) (by decide) (by decide)
  have h3 := locator_error_enumeration.2.2.1 ⟨"2024-02-05", "Иванов", "8"⟩
    [[CellValue.str "Петров"]] [[CellValue.str "2024-02-05"]]
    (by decide) (by decide)
  have h4 := locator_error_enumeration.2.2.2 ⟨"2024-02-05", "Иванов", "8"⟩
    [[CellValue.str "Иванов"]] [[CellValue.str "2024-02-04"]] 0
    (by decide) (by decide) (by decide)
  exact ⟨⟨h1.1, h1.2.1 "Петров" (by decide), h1.2.2⟩,
    ⟨h2.1, h2.2.2 "2" (by decide)⟩, h3, h4⟩

/-- C7: provisioning idempotency guard.  If at clone time some sheet already
carries the computed month-sheet name, `CopyAndPrepareSheet` returns the
"already exists" error, and the spreadsheet keeps every pre-existing sheet
unchanged (plus the stray unrenamed copy): the existing month-sheet is
neither renamed over nor otherwise overwritten. -/
theorem CopyAndPrepareSheet_guard
    (sheetsL : List SheetProps) (copyId : Nat) (copyTitle : String)
    (sourceSheetID : Nat) (productionSheet : String) (d : GoDate)
    (h : sheetsL.any (fun s => s.title == getMonthSheetName d) = true) :
    CopyAndPrepareSheet sheetsL copyId copyTitle sourceSheetID productionSheet d =
      ⟨some ("sheet with name '" ++ getMonthSheetName d ++ "' already exists"),
       sheetsL ++ [⟨copyId, copyTitle, false⟩]⟩ := by
  unfold CopyAndPrepareSheet
  simp [List.any_append, h]

/-- Witness for C7: a February 2024 month-sheet already exists, so the clone
attempt errors out and the existing sheets survive untouched. -/
theorem CopyAndPrepareSheet_guard_witness :
    CopyAndPrepareSheet
        [⟨1, "Табель", false⟩, ⟨7, "Табель Февраль 2024", false⟩]
        9 "Копия Табель" 1 "Выпуск" ⟨2024, 2, 5⟩ =
      ⟨some "sheet with name 'Табель Февраль 2024' already exists",
       [⟨1, "Табель", false⟩, ⟨7, "Табель Февраль 2024", false⟩,
        ⟨9, "Копия Табель", false⟩]⟩ := by
  have h := CopyAndPrepareSheet_guard
    [⟨1, "Табель", false⟩, ⟨7, "Табель Февраль 2024", false⟩]
    9 "Копия Табель" 1 "Выпуск" ⟨2024, 2, 5⟩ (by decide)
  rw [h]
  decide

set_option maxRecDepth 40000 in
theorem reachList_init : initState ∈ reachList := by decide

set_option maxRecDepth 40000 in
theorem reachList_closed :
    ∀ s ∈ reachList, ∀ t ∈ nextStates s, t ∈ reachList := by decide

set_option maxRecDepth 40000 in
theorem reachList_ok : ∀ s ∈ reachList, okState s = true := by decide

/-- C8: under two concurrent requests for the same month, every state
reachable by interleaving `handleMonthSheet` steps has at most one
month-sheet creation, and when both goroutines have returned successfully
exactly one clone of the template was created: the second re-check under the
exclusive lock finds the cache entry written by the first. -/
theorem month_sheet_provisioned_once (s : CState) (h : ReachableC s) :
    s.created ≤ 1 ∧ (s.pc1 = GPC.doneOk ∧ s.pc2 = GPC.doneOk → s.created = 1) := by
  have hmem : s ∈ reachList := by
    induction h with
    | refl => exact reachList_init
    | tail _ hstep ih => exact reachList_closed _ ih _ hstep
  have hok := reachList_ok s hmem
  unfold okState at hok
  rw [Bool.and_eq_true] at hok
  obtain ⟨hle, himp⟩ := hok
  refine ⟨by simpa using hle, ?_⟩
  rintro ⟨hp1, hp2⟩
  simp [hp1, hp2] at himp
  exact himp

/-- Witness for C8 at the initial state, reachable by the empty run. -/
theorem month_sheet_provisioned_once_witness : initState.created ≤ 1 :=
  (month_sheet_provisioned_once initState Relation.ReflTransGen.refl).1

end Siberia
